import Mathlib

/-!
Verification of the budget projection engine of App_budget_flow.

The engine lives in the dashboard component (`src/unnamed/part_000`,
`BudgetDashboard`): totals, the processed/pending split of records against a
current day-of-month, point-in-time budget (`calculateBudgetAtDate`), the
multi-date projection series (`getProjectionData`), the overdraft-adjusted
availability triples, and the projection-date set management
(`addProjectionDate` / `removeProjectionDate`).  The record store
(`src/server/storage.ts`, `MemStorage`) is modelled as an association list
keyed by id.  Monetary amounts are rationals; day-of-month values are
integers.  The source converts the schema's 2-decimal fixed-point strings
with `Number(...)` and adds them as IEEE-754 binary64 values, so the
arithmetic is modelled at two levels: an exact-rational abstraction
(`totalIncome`, `totalDeductions`, ...) for the structural claims where
rounding is not load-bearing, and a faithful binary64 semantics
(`roundDouble`, `jsTotalIncome`, `jsTotalDeductions`, `jsRemainingBudget`)
for the numerical claims about exactness and order of summation.
-/

namespace BudgetFlow

/-- An income record (`shared/schema.ts`, table `incomes`).  `incomeDate` is
nullable at the type level (the dashboard reads it with `?.` and guards every
date filter with a truthiness check), and JavaScript truthiness also rejects
the value `0`, so it is modelled as `Option Int`. -/
structure Income where
  id : String
  description : String
  amount : ℚ
  frequency : String
  incomeDate : Option Int
  userId : Option String
deriving DecidableEq, Repr

/-- A deduction record (`shared/schema.ts`, table `deductions`).  Its date
filters have no truthiness guard in the dashboard, so `deductionDate` is a
plain integer. -/
structure Deduction where
  id : String
  description : String
  amount : ℚ
  category : String
  deductionDate : Int
  userId : Option String
deriving DecidableEq, Repr

/-- `totalIncome = incomes.reduce((sum, income) => sum + Number(income.amount), 0)`,
idealized: the reduce is taken in exact rational arithmetic.  The source adds
IEEE-754 binary64 values, so this abstraction is only used for the claims
where rounding is not load-bearing (which records are filtered, clamped,
partitioned); the double-precision semantics of the same reduce is
`jsTotalIncome` below. -/
def totalIncome (incomes : List Income) : ℚ :=
  incomes.foldl (fun sum income => sum + income.amount) 0

/-- `totalDeductions = deductions.reduce((sum, deduction) => sum + Number(deduction.amount), 0)`,
same exact-rational idealization as `totalIncome`; the double-precision
semantics is `jsTotalDeductions` below. -/
def totalDeductions (deductions : List Deduction) : ℚ :=
  deductions.foldl (fun sum deduction => sum + deduction.amount) 0

/-- `remainingBudget = totalIncome - totalDeductions`. -/
def remainingBudget (incomes : List Income) (deductions : List Deduction) : ℚ :=
  totalIncome incomes - totalDeductions deductions

/-- The income filter body `income.incomeDate && income.incomeDate <= day`:
a `null` or `0` date is falsy and short-circuits to exclusion. -/
def incomeDateLE (income : Income) (day : Int) : Bool :=
  match income.incomeDate with
  | none => false
  | some d => d != 0 && decide (d ≤ day)

/-- The income filter body `income.incomeDate && income.incomeDate > day`. -/
def incomeDateGT (income : Income) (day : Int) : Bool :=
  match income.incomeDate with
  | none => false
  | some d => d != 0 && decide (day < d)

/-- `getProcessedIncomes`: incomes whose (truthy) date is `<= currentDay`. -/
def getProcessedIncomes (incomes : List Income) (currentDay : Int) : List Income :=
  incomes.filter (fun income => incomeDateLE income currentDay)

/-- `getPendingIncomes`: incomes whose (truthy) date is `> currentDay`. -/
def getPendingIncomes (incomes : List Income) (currentDay : Int) : List Income :=
  incomes.filter (fun income => incomeDateGT income currentDay)

/-- `getProcessedDeductions`: deductions with `deductionDate <= currentDay`. -/
def getProcessedDeductions (deductions : List Deduction) (currentDay : Int) : List Deduction :=
  deductions.filter (fun deduction => decide (deduction.deductionDate ≤ currentDay))

/-- `getPendingDeductions`: deductions with `deductionDate > currentDay`. -/
def getPendingDeductions (deductions : List Deduction) (currentDay : Int) : List Deduction :=
  deductions.filter (fun deduction => decide (currentDay < deduction.deductionDate))

/-- `processedIncomesTotal = getProcessedIncomes().reduce((sum, income) => sum + Number(income.amount), 0)`. -/
def processedIncomesTotal (incomes : List Income) (currentDay : Int) : ℚ :=
  (getProcessedIncomes incomes currentDay).foldl (fun sum income => sum + income.amount) 0

/-- `processedDeductionsTotal`, same reduction over `getProcessedDeductions()`. -/
def processedDeductionsTotal (deductions : List Deduction) (currentDay : Int) : ℚ :=
  (getProcessedDeductions deductions currentDay).foldl
    (fun sum deduction => sum + deduction.amount) 0

/-- `rawBudget = processedIncomesTotal - processedDeductionsTotal`. -/
def rawBudget (incomes : List Income) (deductions : List Deduction) (currentDay : Int) : ℚ :=
  processedIncomesTotal incomes currentDay - processedDeductionsTotal deductions currentDay

/-- `currentAvailableBudget = overdraftEnabled ? Math.max(0, remainingBudget) : remainingBudget`. -/
def currentAvailableBudget (overdraftEnabled : Bool)
    (incomes : List Income) (deductions : List Deduction) : ℚ :=
  if overdraftEnabled then max 0 (remainingBudget incomes deductions)
  else remainingBudget incomes deductions

/-- `usedOverdraft = overdraftEnabled && remainingBudget < 0 ? Math.abs(remainingBudget) : 0`. -/
def usedOverdraft (overdraftEnabled : Bool)
    (incomes : List Income) (deductions : List Deduction) : ℚ :=
  if overdraftEnabled && decide (remainingBudget incomes deductions < 0) then
    |remainingBudget incomes deductions|
  else 0

/-- `remainingOverdraft = overdraftEnabled ? Math.max(0, overdraftLimit - usedOverdraft) : 0`. -/
def remainingOverdraft (overdraftEnabled : Bool) (overdraftLimit : ℚ)
    (incomes : List Income) (deductions : List Deduction) : ℚ :=
  if overdraftEnabled then
    max 0 (overdraftLimit - usedOverdraft overdraftEnabled incomes deductions)
  else 0

/-- `monthlyCurrentAvailableBudget = overdraftEnabled ? Math.max(0, rawBudget) : rawBudget`. -/
def monthlyCurrentAvailableBudget (overdraftEnabled : Bool)
    (incomes : List Income) (deductions : List Deduction) (currentDay : Int) : ℚ :=
  if overdraftEnabled then max 0 (rawBudget incomes deductions currentDay)
  else rawBudget incomes deductions currentDay

/-- `monthlyUsedOverdraft = overdraftEnabled && rawBudget < 0 ? Math.abs(rawBudget) : 0`. -/
def monthlyUsedOverdraft (overdraftEnabled : Bool)
    (incomes : List Income) (deductions : List Deduction) (currentDay : Int) : ℚ :=
  if overdraftEnabled && decide (rawBudget incomes deductions currentDay < 0) then
    |rawBudget incomes deductions currentDay|
  else 0

/-- `monthlyRemainingOverdraft = overdraftEnabled ? Math.max(0, overdraftLimit - monthlyUsedOverdraft) : 0`. -/
def monthlyRemainingOverdraft (overdraftEnabled : Bool) (overdraftLimit : ℚ)
    (incomes : List Income) (deductions : List Deduction) (currentDay : Int) : ℚ :=
  if overdraftEnabled then
    max 0 (overdraftLimit - monthlyUsedOverdraft overdraftEnabled incomes deductions currentDay)
  else 0

/-- One point of the projection series: the object literal built inside
`getProjectionData`'s `map`. -/
structure ProjectionPoint where
  date : Int
  budget : ℚ
  incomes : ℚ
  deductions : ℚ
  isPast : Bool
  isToday : Bool
deriving DecidableEq, Repr

/-- `calculateBudgetAtDate(targetDate)`: clamp the target to
`Math.min(targetDate, currentDay)`, then sum the incomes (truthy date
`<= targetDay`) minus the deductions (`deductionDate <= targetDay`). -/
def calculateBudgetAtDate (incomes : List Income) (deductions : List Deduction)
    (currentDay targetDate : Int) : ℚ :=
  let targetDay := min targetDate currentDay
  let processedIncomesAtDate :=
    (incomes.filter (fun income => incomeDateLE income targetDay)).foldl
      (fun sum income => sum + income.amount) 0
  let processedDeductionsAtDate :=
    (deductions.filter (fun deduction => decide (deduction.deductionDate ≤ targetDay))).foldl
      (fun sum deduction => sum + deduction.amount) 0
  processedIncomesAtDate - processedDeductionsAtDate

/-- The body of `getProjectionData`'s `map`: cumulative sums as of `date`
itself (no clamping to `currentDay`), `isPast = date <= currentDay`,
`isToday = date === currentDay`. -/
def projectionPoint (incomes : List Income) (deductions : List Deduction)
    (currentDay date : Int) : ProjectionPoint :=
  let isPast := decide (date ≤ currentDay)
  let processedIncomes :=
    (incomes.filter (fun income => incomeDateLE income date)).foldl
      (fun sum income => sum + income.amount) 0
  let processedDeductions :=
    (deductions.filter (fun deduction => decide (deduction.deductionDate ≤ date))).foldl
      (fun sum deduction => sum + deduction.amount) 0
  let budget := processedIncomes - processedDeductions
  { date := date, budget := budget, incomes := processedIncomes,
    deductions := processedDeductions, isPast := isPast,
    isToday := date == currentDay }

/-- `getProjectionData()`: map each requested date to its projection point,
then sort ascending by date (`.sort((a, b) => a.date - b.date)`, a stable
sort, modelled by `mergeSort`). -/
def getProjectionData (incomes : List Income) (deductions : List Deduction)
    (currentDay : Int) (projectionDates : List Int) : List ProjectionPoint :=
  let projectionData := projectionDates.map (projectionPoint incomes deductions currentDay)
  projectionData.mergeSort (fun a b => decide (a.date ≤ b.date))

/-- `addProjectionDate(newDate)`: insert only when `1 <= newDate <= 31` and
the date is not already present, re-sorting the array ascending; otherwise a
silent no-op. -/
def addProjectionDate (dates : List Int) (newDate : Int) : List Int :=
  if decide (1 ≤ newDate) && decide (newDate ≤ 31) && !(dates.contains newDate) then
    (dates ++ [newDate]).mergeSort (fun a b => decide (a ≤ b))
  else dates

/-- `removeProjectionDate(dateToRemove)`: filter the date out. -/
def removeProjectionDate (dates : List Int) (dateToRemove : Int) : List Int :=
  dates.filter (fun date => date != dateToRemove)

/-- The overdraft availability formula of the spec,
`availability(budget, overdraftEnabled, overdraftLimit) -> (available, used, remaining)`,
as one function of the budget figure it is applied to; the source inlines this
formula twice, once at `remainingBudget` and once at `rawBudget`. -/
def availability (overdraftEnabled : Bool) (overdraftLimit budget : ℚ) : ℚ × ℚ × ℚ :=
  (if overdraftEnabled then max 0 budget else budget,
   if overdraftEnabled && decide (budget < 0) then |budget| else 0,
   if overdraftEnabled then
     max 0 (overdraftLimit - (if overdraftEnabled && decide (budget < 0) then |budget| else 0))
   else 0)

/-- A partial income update, `Partial<InsertIncome>`: the insert schema omits
`id` and `userId`, so a partial update can name neither.  A field set to
`some v` is present in the partial; `none` means absent. -/
structure IncomeUpdate where
  description : Option String
  amount : Option ℚ
  frequency : Option String
  incomeDate : Option (Option Int)
deriving Repr

/-- A partial deduction update, `Partial<InsertDeduction>` (no `id`, no
`userId`). -/
structure DeductionUpdate where
  description : Option String
  amount : Option ℚ
  category : Option String
  deductionDate : Option Int
deriving Repr

/-- The object spread `{ ...existingIncome, ...updateData }`: fields present
in the partial replace the old ones, all other fields (in particular `id` and
`userId`) are kept. -/
def applyIncomeUpdate (existing : Income) (u : IncomeUpdate) : Income :=
  { existing with
    description := u.description.getD existing.description
    amount := u.amount.getD existing.amount
    frequency := u.frequency.getD existing.frequency
    incomeDate := u.incomeDate.getD existing.incomeDate }

/-- The object spread `{ ...existingDeduction, ...updateData }`. -/
def applyDeductionUpdate (existing : Deduction) (u : DeductionUpdate) : Deduction :=
  { existing with
    description := u.description.getD existing.description
    amount := u.amount.getD existing.amount
    category := u.category.getD existing.category
    deductionDate := u.deductionDate.getD existing.deductionDate }

/-- `Map.get(id)` on a `Map<string, α>` modelled as an association list. -/
def storeGet {α : Type} (m : List (String × α)) (id : String) : Option α :=
  (m.find? (fun e => e.1 == id)).map (fun e => e.2)

/-- `Map.set(id, v)`: replace the value at an existing key, else append. -/
def storeSet {α : Type} (m : List (String × α)) (id : String) (v : α) :
    List (String × α) :=
  if m.any (fun e => e.1 == id) then
    m.map (fun e => if e.1 == id then (id, v) else e)
  else m ++ [(id, v)]

/-- `MemStorage.updateIncome(id, updateData)`: look the id up; on a miss
return `undefined` and leave the map untouched, otherwise store and return
the spread-updated record.  The pair is (returned value, map afterwards). -/
def updateIncome (m : List (String × Income)) (id : String) (u : IncomeUpdate) :
    Option Income × List (String × Income) :=
  match storeGet m id with
  | none => (none, m)
  | some existingIncome =>
    let updatedIncome := applyIncomeUpdate existingIncome u
    (some updatedIncome, storeSet m id updatedIncome)

/-- `MemStorage.updateDeduction(id, updateData)`, same shape. -/
def updateDeduction (m : List (String × Deduction)) (id : String) (u : DeductionUpdate) :
    Option Deduction × List (String × Deduction) :=
  match storeGet m id with
  | none => (none, m)
  | some existingDeduction =>
    let updatedDeduction := applyDeductionUpdate existingDeduction u
    (some updatedDeduction, storeSet m id updatedDeduction)

/-- Validity of an income record against the data-model invariant: its
day-of-month is present and lies in `[1, 31]`. -/
def validIncomeDate (income : Income) : Bool :=
  match income.incomeDate with
  | none => false
  | some d => decide (1 ≤ d) && decide (d ≤ 31)

/-- Validity of a deduction record: `deductionDate` lies in `[1, 31]`. -/
def validDeductionDate (deduction : Deduction) : Bool :=
  decide (1 ≤ deduction.deductionDate) && decide (deduction.deductionDate ≤ 31)

/-- Sum of the amounts of the incomes whose `incomeDate` is `≤ day`, as the
spec words it (no truthiness subtlety: a record with no date contributes
nothing). -/
def incomeSumUpTo (incomes : List Income) (day : Int) : ℚ :=
  ((incomes.filter (fun income =>
      income.incomeDate.any (fun d => decide (d ≤ day)))).map Income.amount).sum

/-- Sum of the amounts of the deductions whose `deductionDate` is `≤ day`. -/
def deductionSumUpTo (deductions : List Deduction) (day : Int) : ℚ :=
  ((deductions.filter (fun deduction =>
      decide (deduction.deductionDate ≤ day))).map Deduction.amount).sum

/-- The spec's worked example: one income of 2000 on day 1. -/
def exampleIncomes : List Income :=
  [{ id := "i1", description := "salaire", amount := 2000, frequency := "monthly",
     incomeDate := some 1, userId := none }]

/-- The spec's worked example: deductions of 800 on day 5 and 500 on day 20. -/
def exampleDeductions : List Deduction :=
  [{ id := "d1", description := "loyer", amount := 800, category := "housing",
     deductionDate := 5, userId := none },
   { id := "d2", description := "voiture", amount := 500, category := "transport",
     deductionDate := 20, userId := none }]

/-- Round a rational to the nearest integer, ties to even — the rounding mode
of IEEE-754 binary64 arithmetic. -/
def roundHalfEven (q : ℚ) : ℤ :=
  let f := ⌊q⌋
  if q - f < 1/2 then f
  else if 1/2 < q - f then f + 1
  else if f % 2 = 0 then f else f + 1

/-- Round a rational to the nearest IEEE-754 binary64 value (53-bit mantissa,
round to nearest, ties to even), as an exact rational.  Overflow, subnormals
and NaN are not modelled: `decimal(10, 2)` amounts and their monthly sums stay
far inside the normal range. -/
def roundDouble (q : ℚ) : ℚ :=
  if q = 0 then 0
  else
    let e : ℤ := Int.log 2 |q| - 52
    let m : ℤ := roundHalfEven (|q| / 2 ^ e)
    if q < 0 then -(m * (2 : ℚ) ^ e) else m * (2 : ℚ) ^ e

/-- The double-precision semantics of
`incomes.reduce((sum, income) => sum + Number(income.amount), 0)`: every
JavaScript `+` rounds its exact result to the nearest binary64 value. -/
def jsTotalIncome (incomes : List Income) : ℚ :=
  incomes.foldl (fun sum income => roundDouble (sum + income.amount)) 0

/-- The double-precision semantics of the deductions reduce. -/
def jsTotalDeductions (deductions : List Deduction) : ℚ :=
  deductions.foldl (fun sum deduction => roundDouble (sum + deduction.amount)) 0

/-- The double-precision semantics of
`remainingBudget = totalIncome - totalDeductions`. -/
def jsRemainingBudget (incomes : List Income) (deductions : List Deduction) : ℚ :=
  roundDouble (jsTotalIncome incomes - jsTotalDeductions deductions)

/-- The binary64 value of the two-decimal literal `0.10` (`Number("0.10")`). -/
def dTenth : ℚ := roundDouble (10/100)

/-- The binary64 value of the two-decimal literal `0.20`. -/
def dFifth : ℚ := roundDouble (20/100)

/-- The binary64 value of the two-decimal literal `0.30`. -/
def dThreeTenths : ℚ := roundDouble (30/100)

/-- Three incomes with the two-decimal amounts 0.10, 0.20, 0.30 (as the
doubles the program stores after `Number(...)`). -/
def floatIncomesA : List Income :=
  [{ id := "x1", description := "a", amount := dTenth, frequency := "monthly",
     incomeDate := some 1, userId := none },
   { id := "x2", description := "b", amount := dFifth, frequency := "monthly",
     incomeDate := some 2, userId := none },
   { id := "x3", description := "c", amount := dThreeTenths, frequency := "monthly",
     incomeDate := some 3, userId := none }]

/-- The same three incomes in the opposite order. -/
def floatIncomesB : List Income :=
  [{ id := "x3", description := "c", amount := dThreeTenths, frequency := "monthly",
     incomeDate := some 3, userId := none },
   { id := "x2", description := "b", amount := dFifth, frequency := "monthly",
     incomeDate := some 2, userId := none },
   { id := "x1", description := "a", amount := dTenth, frequency := "monthly",
     incomeDate := some 1, userId := none }]

/-- Two incomes with whole-unit amounts (2000 and 500). -/
def wholeIncomes : List Income :=
  [{ id := "w1", description := "salaire", amount := 2000, frequency := "monthly",
     incomeDate := some 1, userId := none },
   { id := "w2", description := "freelance", amount := 500, frequency := "monthly",
     incomeDate := some 15, userId := none }]

/-- The same two incomes in the opposite order. -/
def wholeIncomesSwapped : List Income :=
  [{ id := "w2", description := "freelance", amount := 500, frequency := "monthly",
     incomeDate := some 15, userId := none },
   { id := "w1", description := "salaire", amount := 2000, frequency := "monthly",
     incomeDate := some 1, userId := none }]

/-- A one-record income store keyed the way `createIncome` builds it. -/
def exampleIncomeStore : List (String × Income) :=
  [("i1", { id := "i1", description := "salaire", amount := 2000,
            frequency := "monthly", incomeDate := some 1, userId := none })]

/-- A one-record deduction store. -/
def exampleDeductionStore : List (String × Deduction) :=
  [("d1", { id := "d1", description := "loyer", amount := 800,
            category := "housing", deductionDate := 5, userId := none })]

/-- A partial income update naming only `amount`. -/
def exampleIncomeUpdate : IncomeUpdate :=
  { description := none, amount := some 2500, frequency := none, incomeDate := none }

/-- A partial deduction update naming only `deductionDate`. -/
def exampleDeductionUpdate : DeductionUpdate :=
  { description := none, amount := none, category := none, deductionDate := some 12 }

/-- An income whose day-of-month is absent: JavaScript truthiness drops it
from every date filter. -/
def nullDateIncome : Income :=
  { id := "i9", description := "bonus", amount := 150, frequency := "monthly",
    incomeDate := none, userId := none }

theorem foldl_amount_eq_sum : ∀ (l : List Income) (c : ℚ),
    l.foldl (fun sum income => sum + income.amount) c = c + (l.map Income.amount).sum
  | [], c => by simp
  | i :: l, c => by
    rw [List.foldl_cons, foldl_amount_eq_sum l (c + i.amount)]
    simp [add_assoc]

theorem foldl_damount_eq_sum : ∀ (l : List Deduction) (c : ℚ),
    l.foldl (fun sum deduction => sum + deduction.amount) c
      = c + (l.map Deduction.amount).sum
  | [], c => by simp
  | d :: l, c => by
    rw [List.foldl_cons, foldl_damount_eq_sum l (c + d.amount)]
    simp [add_assoc]

theorem totalIncome_eq_sum (l : List Income) :
    totalIncome l = (l.map Income.amount).sum := by
  rw [totalIncome, foldl_amount_eq_sum]
  simp

theorem totalDeductions_eq_sum (l : List Deduction) :
    totalDeductions l = (l.map Deduction.amount).sum := by
  rw [totalDeductions, foldl_damount_eq_sum]
  simp

/-- C3: with overdraft disabled the available budget is the raw remaining
budget (negative values included); with overdraft enabled and a non-negative
limit, `availableBudget = max 0 remainingBudget`,
`usedOverdraft = |remainingBudget|` exactly when the budget is negative,
`remainingOverdraft = max 0 (limit - usedOverdraft)`, hence
`remainingOverdraft ≥ 0`, and it equals the limit whenever the remaining
budget is non-negative. -/
theorem overdraft_availability_spec (incomes : List Income) (deductions : List Deduction)
    (overdraftLimit : ℚ) (hlim : 0 ≤ overdraftLimit) :
    currentAvailableBudget false incomes deductions = remainingBudget incomes deductions
    ∧ currentAvailableBudget true incomes deductions
        = max 0 (remainingBudget incomes deductions)
    ∧ usedOverdraft true incomes deductions
        = (if remainingBudget incomes deductions < 0 then
            |remainingBudget incomes deductions| else 0)
    ∧ remainingOverdraft true overdraftLimit incomes deductions
        = max 0 (overdraftLimit - usedOverdraft true incomes deductions)
    ∧ 0 ≤ remainingOverdraft true overdraftLimit incomes deductions
    ∧ (0 ≤ remainingBudget incomes deductions →
        remainingOverdraft true overdraftLimit incomes deductions = overdraftLimit) := by
  refine ⟨by simp [currentAvailableBudget], by simp [currentAvailableBudget], ?_,
    by simp [remainingOverdraft], by simp [remainingOverdraft], ?_⟩
  · by_cases h : remainingBudget incomes deductions < 0 <;> simp [usedOverdraft, h]
  · intro h
    rw [remainingOverdraft, usedOverdraft]
    simp [not_lt.mpr h, max_eq_right hlim]

theorem overdraft_availability_spec_witness :
    (0 : ℚ) ≤ 300
    ∧ (currentAvailableBudget false exampleIncomes exampleDeductions
        = remainingBudget exampleIncomes exampleDeductions
    ∧ currentAvailableBudget true exampleIncomes exampleDeductions
        = max 0 (remainingBudget exampleIncomes exampleDeductions)
    ∧ usedOverdraft true exampleIncomes exampleDeductions
        = (if remainingBudget exampleIncomes exampleDeductions < 0 then
            |remainingBudget exampleIncomes exampleDeductions| else 0)
    ∧ remainingOverdraft true 300 exampleIncomes exampleDeductions
        = max 0 (300 - usedOverdraft true exampleIncomes exampleDeductions)
    ∧ 0 ≤ remainingOverdraft true 300 exampleIncomes exampleDeductions
    ∧ (0 ≤ remainingBudget exampleIncomes exampleDeductions →
        remainingOverdraft true 300 exampleIncomes exampleDeductions = 300)) :=
  ⟨by simp, overdraft_availability_spec exampleIncomes exampleDeductions 300 (by simp)⟩

/-- C6: the overdraft availability formula is one and the same function
applied to the full-month `remainingBudget` (dashboard view) and to the
processed-only `rawBudget` (monthly tracking view); on the spec's worked
example at `currentDay = 10` the two views disagree (700 versus 1200), with
`remainingBudget < rawBudget` because of the pending day-20 deduction. -/
theorem overdraft_two_views :
    (∀ (enabled : Bool) (limit : ℚ) (incomes : List Income) (deductions : List Deduction),
      (currentAvailableBudget enabled incomes deductions,
       usedOverdraft enabled incomes deductions,
       remainingOverdraft enabled limit incomes deductions)
        = availability enabled limit (remainingBudget incomes deductions))
    ∧ (∀ (enabled : Bool) (limit : ℚ) (incomes : List Income)
        (deductions : List Deduction) (currentDay : Int),
      (monthlyCurrentAvailableBudget enabled incomes deductions currentDay,
       monthlyUsedOverdraft enabled incomes deductions currentDay,
       monthlyRemainingOverdraft enabled limit incomes deductions currentDay)
        = availability enabled limit (rawBudget incomes deductions currentDay))
    ∧ remainingBudget exampleIncomes exampleDeductions
        < rawBudget exampleIncomes exampleDeductions 10
    ∧ currentAvailableBudget false exampleIncomes exampleDeductions
        ≠ monthlyCurrentAvailableBudget false exampleIncomes exampleDeductions 10 := by
  refine ⟨fun enabled limit incomes deductions => rfl,
    fun enabled limit incomes deductions currentDay => rfl, ?_, ?_⟩
  · norm_num [remainingBudget, rawBudget, totalIncome, totalDeductions,
      processedIncomesTotal, processedDeductionsTotal, getProcessedIncomes,
      getProcessedDeductions, incomeDateLE, exampleIncomes, exampleDeductions]
  · norm_num [currentAvailableBudget, monthlyCurrentAvailableBudget,
      remainingBudget, rawBudget, totalIncome, totalDeductions,
      processedIncomesTotal, processedDeductionsTotal, getProcessedIncomes,
      getProcessedDeductions, incomeDateLE, exampleIncomes, exampleDeductions]

theorem roundHalfEven_eq_down (q : ℚ) (f : ℤ) (h1 : (f : ℚ) ≤ q) (h2 : q < f + 1)
    (h3 : q - f < 1/2) : roundHalfEven q = f := by
  have hf : ⌊q⌋ = f := Int.floor_eq_iff.mpr ⟨h1, h2⟩
  simp only [roundHalfEven, hf]
  rw [if_pos h3]

theorem roundHalfEven_eq_up (q : ℚ) (f : ℤ) (h1 : (f : ℚ) ≤ q) (h2 : q < f + 1)
    (h3 : 1/2 < q - f) : roundHalfEven q = f + 1 := by
  have hf : ⌊q⌋ = f := Int.floor_eq_iff.mpr ⟨h1, h2⟩
  simp only [roundHalfEven, hf]
  rw [if_neg (by linarith), if_pos h3]

theorem roundHalfEven_eq_tie (q : ℚ) (f : ℤ) (h1 : (f : ℚ) ≤ q)
    (h3 : q - f = 1/2) :
    roundHalfEven q = (if f % 2 = 0 then f else f + 1) := by
  have hf : ⌊q⌋ = f := Int.floor_eq_iff.mpr ⟨h1, by linarith⟩
  simp only [roundHalfEven, hf]
  rw [if_neg (by linarith), if_neg (by linarith)]

theorem roundHalfEven_intCast (z : ℤ) : roundHalfEven (z : ℚ) = z := by
  apply roundHalfEven_eq_down (z : ℚ) z (le_refl _) (by norm_num)
  norm_num

theorem roundDouble_pos_eq (q : ℚ) (k m : ℤ) (hq : 0 < q)
    (hk1 : (2 : ℚ) ^ k ≤ q) (hk2 : q < (2 : ℚ) ^ (k + 1))
    (hm : roundHalfEven (q / 2 ^ (k - 52)) = m) :
    roundDouble q = m * (2 : ℚ) ^ (k - 52) := by
  have hb : (1 : ℕ) < 2 := by norm_num
  have hcast : ((2 : ℕ) : ℚ) = (2 : ℚ) := by norm_num
  have hlog : Int.log 2 q = k := by
    have hle : k ≤ Int.log 2 q := by
      rw [← Int.zpow_le_iff_le_log hb hq, hcast]
      exact hk1
    have hlt : Int.log 2 q < k + 1 := by
      rw [← Int.lt_zpow_iff_log_lt hb hq, hcast]
      exact hk2
    omega
  have habs : |q| = q := abs_of_pos hq
  simp only [roundDouble, habs, hlog]
  rw [if_neg (ne_of_gt hq), if_neg (not_lt.mpr hq.le), hm]

theorem roundDouble_zero : roundDouble 0 = 0 := by
  simp [roundDouble]

theorem roundDouble_dyadic (m e : ℤ) (h1 : 4503599627370496 ≤ m)
    (h2 : m < 9007199254740992) :
    roundDouble ((m : ℚ) * (2 : ℚ) ^ e) = (m : ℚ) * (2 : ℚ) ^ e := by
  have hm0 : (0 : ℚ) < (m : ℚ) := by exact_mod_cast lt_of_lt_of_le (by norm_num) h1
  have he0 : (0 : ℚ) < (2 : ℚ) ^ e := by positivity
  have hq : (0 : ℚ) < (m : ℚ) * 2 ^ e := mul_pos hm0 he0
  have hes : (52 + e) - 52 = e := by ring
  have h1q : (4503599627370496 : ℚ) ≤ (m : ℚ) := by exact_mod_cast h1
  have h2q : (m : ℚ) < 9007199254740992 := by exact_mod_cast h2
  have hsplit : (2 : ℚ) ^ (52 + e) = 4503599627370496 * (2 : ℚ) ^ e := by
    rw [zpow_add₀ (two_ne_zero)]
    norm_num
  have hsplit2 : (2 : ℚ) ^ (52 + e + 1) = 9007199254740992 * (2 : ℚ) ^ e := by
    rw [zpow_add₀ (two_ne_zero), zpow_add₀ (two_ne_zero)]
    norm_num
    ring
  rw [roundDouble_pos_eq ((m : ℚ) * 2 ^ e) (52 + e) m hq
    (by rw [hsplit]; exact mul_le_mul_of_nonneg_right h1q he0.le)
    (by rw [hsplit2]; exact mul_lt_mul_of_pos_right h2q he0)
    (by rw [hes, mul_div_assoc, div_self (ne_of_gt he0), mul_one,
      roundHalfEven_intCast])]
  rw [hes]

theorem roundDouble_nat (n : ℕ) (h : (n : ℚ) < 2 ^ 53) : roundDouble (n : ℚ) = n := by
  rcases Nat.eq_zero_or_pos n with rfl | hn
  · simp [roundDouble]
  · have hnq : n < 2 ^ 53 := by exact_mod_cast h
    have hK2 : n < 2 ^ (Nat.log 2 n + 1) := Nat.lt_pow_succ_log_self (by norm_num) n
    have hK1 : 2 ^ Nat.log 2 n ≤ n := Nat.pow_log_le_self 2 hn.ne'
    have hK53 : Nat.log 2 n ≤ 52 := by
      by_contra hgt
      have h53 : 53 ≤ Nat.log 2 n := by omega
      have : (2 : ℕ) ^ 53 ≤ 2 ^ Nat.log 2 n := Nat.pow_le_pow_right (by norm_num) h53
      omega
    set j : ℕ := 52 - Nat.log 2 n with hj
    have hmb1 : 4503599627370496 ≤ (n : ℤ) * 2 ^ j := by
      have : (2 : ℕ) ^ 52 ≤ n * 2 ^ j := by
        calc (2 : ℕ) ^ 52 = 2 ^ Nat.log 2 n * 2 ^ j := by
              rw [← pow_add]
              congr 1
              omega
        _ ≤ n * 2 ^ j := Nat.mul_le_mul_right _ hK1
      exact_mod_cast this
    have hmb2 : (n : ℤ) * 2 ^ j < 9007199254740992 := by
      have : n * 2 ^ j < 2 ^ 53 := by
        have hpow : (0 : ℕ) < 2 ^ j := by positivity
        calc n * 2 ^ j < 2 ^ (Nat.log 2 n + 1) * 2 ^ j :=
              (Nat.mul_lt_mul_right hpow).mpr hK2
        _ = 2 ^ 53 := by
              rw [← pow_add]
              congr 1
              omega
      exact_mod_cast this
    have key := roundDouble_dyadic ((n : ℤ) * 2 ^ j) (-(j : ℤ)) hmb1 hmb2
    have hval : (((n : ℤ) * 2 ^ j : ℤ) : ℚ) * (2 : ℚ) ^ (-(j : ℤ)) = (n : ℚ) := by
      push_cast
      rw [mul_assoc, ← zpow_natCast (2 : ℚ) j, ← zpow_add₀ (two_ne_zero : (2 : ℚ) ≠ 0)]
      simp
    rw [hval] at key
    exact key

theorem roundDouble_neg (q : ℚ) : roundDouble (-q) = -roundDouble q := by
  rcases lt_trichotomy q 0 with h | rfl | h
  · simp only [roundDouble, abs_neg]
    rw [if_neg (by intro hq; rw [neg_eq_zero] at hq; exact absurd hq (ne_of_lt h)),
      if_neg (ne_of_lt h), if_neg (not_lt.mpr (by linarith)), if_pos h]
    ring
  · simp [roundDouble]
  · simp only [roundDouble, abs_neg]
    rw [if_neg (by intro hq; rw [neg_eq_zero] at hq; exact absurd hq (ne_of_gt h)),
      if_neg (ne_of_gt h), if_pos (by linarith), if_neg (not_lt.mpr h.le)]

theorem roundDouble_int (z : ℤ) (h : |z| < 9007199254740992) :
    roundDouble (z : ℚ) = z := by
  rcases le_or_lt 0 z with hz | hz
  · lift z to ℕ using hz
    have hb : (z : ℕ) < 9007199254740992 := by
      rw [abs_of_nonneg (by positivity)] at h
      exact_mod_cast h
    have hbq : ((z : ℕ) : ℚ) < 2 ^ 53 := by
      have hb2 : ((z : ℕ) : ℚ) < 9007199254740992 := by exact_mod_cast hb
      calc ((z : ℕ) : ℚ) < 9007199254740992 := hb2
        _ ≤ 2 ^ 53 := by norm_num
    rw [Int.cast_natCast, roundDouble_nat z hbq]
  · have hneg : (0 : ℤ) ≤ -z := by omega
    have habs : |z| = -z := abs_of_neg hz
    rw [habs] at h
    have h2 : ((-z).toNat : ℤ) = -z := Int.toNat_of_nonneg hneg
    have hcast : ((z : ℤ) : ℚ) = -(((-z).toNat : ℕ) : ℚ) := by
      have hq : (((-z).toNat : ℕ) : ℚ) = ((-z : ℤ) : ℚ) := by
        exact_mod_cast congrArg (fun t : ℤ => (t : ℚ)) h2
      rw [hq]
      push_cast
      ring
    have hbq : (((-z).toNat : ℕ) : ℚ) < 2 ^ 53 := by
      have hb : ((-z).toNat : ℤ) < 9007199254740992 := by omega
      have hb2 : (((-z).toNat : ℕ) : ℚ) < 9007199254740992 := by exact_mod_cast hb
      calc (((-z).toNat : ℕ) : ℚ) < 9007199254740992 := hb2
        _ ≤ 2 ^ 53 := by norm_num
    rw [hcast, roundDouble_neg, roundDouble_nat ((-z).toNat) hbq]

theorem incomeDateLE_of_valid {income : Income} (h : validIncomeDate income = true)
    (day : Int) :
    incomeDateLE income day = income.incomeDate.any (fun d => decide (d ≤ day)) := by
  rcases hh : income.incomeDate with _ | d
  · rw [validIncomeDate] at h
    rw [hh] at h
    exact absurd h (by simp)
  · rw [validIncomeDate] at h
    rw [hh] at h
    simp only [Bool.and_eq_true, decide_eq_true_eq] at h
    have hd : (d != 0) = true := by
      simp only [bne_iff_ne, ne_eq]
      omega
    rw [incomeDateLE, hh]
    simp [hd]

/-- C1: `calculateBudgetAtDate(targetDate)` is the processed income sum minus
the processed deduction sum at the clamped day `min targetDate currentDay`;
hence any future target collapses to the value at `currentDay`. -/
theorem calculateBudgetAtDate_spec (incomes : List Income) (deductions : List Deduction)
    (currentDay targetDate : Int)
    (hvi : ∀ i ∈ incomes, validIncomeDate i = true)
    (hc : 1 ≤ currentDay ∧ currentDay ≤ 31) :
    calculateBudgetAtDate incomes deductions currentDay targetDate
      = incomeSumUpTo incomes (min targetDate currentDay)
        - deductionSumUpTo deductions (min targetDate currentDay)
    ∧ (currentDay < targetDate →
        calculateBudgetAtDate incomes deductions currentDay targetDate
          = calculateBudgetAtDate incomes deductions currentDay currentDay) := by
  constructor
  · simp only [calculateBudgetAtDate, incomeSumUpTo, deductionSumUpTo]
    rw [List.filter_congr
      (fun i hi => incomeDateLE_of_valid (hvi i hi) (min targetDate currentDay))]
    rw [foldl_amount_eq_sum, foldl_damount_eq_sum]
    simp
  · intro h
    simp only [calculateBudgetAtDate]
    rw [min_eq_right h.le, min_self]

theorem calculateBudgetAtDate_spec_witness :
    (∀ i ∈ exampleIncomes, validIncomeDate i = true)
    ∧ (1 ≤ (10 : Int) ∧ (10 : Int) ≤ 31)
    ∧ (calculateBudgetAtDate exampleIncomes exampleDeductions 10 15
        = incomeSumUpTo exampleIncomes (min 15 10)
          - deductionSumUpTo exampleDeductions (min 15 10)
      ∧ ((10 : Int) < 15 →
          calculateBudgetAtDate exampleIncomes exampleDeductions 10 15
            = calculateBudgetAtDate exampleIncomes exampleDeductions 10 10)) :=
  ⟨by decide, by decide,
    calculateBudgetAtDate_spec exampleIncomes exampleDeductions 10 15
      (by decide) (by decide)⟩

/-- C2: each requested date contributes its projection point to
`getProjectionData`; the point's cumulative income and deductions are the
sums of all records dated up to the requested date itself — never clamped to
`currentDay` — its budget is their difference, `isPast` holds exactly when
the date is `≤ currentDay`, and `isToday` exactly when it equals
`currentDay`. -/
theorem projection_point_spec (incomes : List Income) (deductions : List Deduction)
    (currentDay : Int) (dates : List Int) (d : Int) (hd : d ∈ dates)
    (hvi : ∀ i ∈ incomes, validIncomeDate i = true) :
    projectionPoint incomes deductions currentDay d
        ∈ getProjectionData incomes deductions currentDay dates
    ∧ (projectionPoint incomes deductions currentDay d).date = d
    ∧ (projectionPoint incomes deductions currentDay d).incomes
        = incomeSumUpTo incomes d
    ∧ (projectionPoint incomes deductions currentDay d).deductions
        = deductionSumUpTo deductions d
    ∧ (projectionPoint incomes deductions currentDay d).budget
        = (projectionPoint incomes deductions currentDay d).incomes
          - (projectionPoint incomes deductions currentDay d).deductions
    ∧ ((projectionPoint incomes deductions currentDay d).isPast = true
        ↔ d ≤ currentDay)
    ∧ ((projectionPoint incomes deductions currentDay d).isToday = true
        ↔ d = currentDay) := by
  refine ⟨?_, rfl, ?_, ?_, rfl, by simp [projectionPoint], by simp [projectionPoint]⟩
  · simp only [getProjectionData, List.mem_mergeSort]
    exact List.mem_map_of_mem _ hd
  · simp only [projectionPoint, incomeSumUpTo]
    rw [List.filter_congr (fun i hi => incomeDateLE_of_valid (hvi i hi) d)]
    rw [foldl_amount_eq_sum]
    simp
  · simp only [projectionPoint, deductionSumUpTo]
    rw [foldl_damount_eq_sum]
    simp

theorem projection_point_spec_witness :
    (15 : Int) ∈ [5, 10, 15, 20, 25]
    ∧ (∀ i ∈ exampleIncomes, validIncomeDate i = true)
    ∧ (projectionPoint exampleIncomes exampleDeductions 10 15
        ∈ getProjectionData exampleIncomes exampleDeductions 10 [5, 10, 15, 20, 25]
      ∧ (projectionPoint exampleIncomes exampleDeductions 10 15).date = 15
      ∧ (projectionPoint exampleIncomes exampleDeductions 10 15).incomes
          = incomeSumUpTo exampleIncomes 15
      ∧ (projectionPoint exampleIncomes exampleDeductions 10 15).deductions
          = deductionSumUpTo exampleDeductions 15
      ∧ (projectionPoint exampleIncomes exampleDeductions 10 15).budget
          = (projectionPoint exampleIncomes exampleDeductions 10 15).incomes
            - (projectionPoint exampleIncomes exampleDeductions 10 15).deductions
      ∧ ((projectionPoint exampleIncomes exampleDeductions 10 15).isPast = true
          ↔ (15 : Int) ≤ 10)
      ∧ ((projectionPoint exampleIncomes exampleDeductions 10 15).isToday = true
          ↔ (15 : Int) = 10)) :=
  ⟨by decide, by decide,
    projection_point_spec exampleIncomes exampleDeductions 10 [5, 10, 15, 20, 25] 15
      (by decide) (by decide)⟩

theorem incomeDateGT_eq_not_LE {income : Income} (h : validIncomeDate income = true)
    (day : Int) : incomeDateGT income day = !(incomeDateLE income day) := by
  rcases hh : income.incomeDate with _ | d
  · rw [validIncomeDate] at h
    rw [hh] at h
    exact absurd h (by simp)
  · rw [validIncomeDate] at h
    rw [hh] at h
    simp only [Bool.and_eq_true, decide_eq_true_eq] at h
    have hd : (d != 0) = true := by
      simp only [bne_iff_ne, ne_eq]
      omega
    rw [incomeDateGT, incomeDateLE, hh]
    rcases Int.lt_or_le day d with hlt | hle
    · simp [hd, hlt, Int.not_le.mpr hlt]
    · simp [hd, hle, Int.not_lt.mpr hle]

theorem not_incomeDateLE_and_GT (income : Income) (day : Int) :
    ¬(incomeDateLE income day = true ∧ incomeDateGT income day = true) := by
  rintro ⟨h1, h2⟩
  rcases hh : income.incomeDate with _ | d
  · rw [incomeDateLE, hh] at h1
    exact absurd h1 (by simp)
  · rw [incomeDateLE, hh] at h1
    rw [incomeDateGT, hh] at h2
    simp only [Bool.and_eq_true, decide_eq_true_eq] at h1 h2
    omega

/-- C4: for records whose dates satisfy the `[1, 31]` data-model invariant
and any current day in `[1, 31]`, processed and pending form a total and
disjoint partition of each collection, and a record dated exactly at
`currentDay` lands on the processed side. -/
theorem processed_pending_partition (incomes : List Income)
    (deductions : List Deduction) (currentDay : Int)
    (hvi : ∀ i ∈ incomes, validIncomeDate i = true)
    (hvd : ∀ d ∈ deductions, validDeductionDate d = true)
    (hc : 1 ≤ currentDay ∧ currentDay ≤ 31) :
    List.Perm
      (getProcessedIncomes incomes currentDay ++ getPendingIncomes incomes currentDay)
      incomes
    ∧ (∀ i, i ∈ getProcessedIncomes incomes currentDay →
        i ∉ getPendingIncomes incomes currentDay)
    ∧ List.Perm
      (getProcessedDeductions deductions currentDay
        ++ getPendingDeductions deductions currentDay)
      deductions
    ∧ (∀ d, d ∈ getProcessedDeductions deductions currentDay →
        d ∉ getPendingDeductions deductions currentDay)
    ∧ (∀ i ∈ incomes, i.incomeDate = some currentDay →
        i ∈ getProcessedIncomes incomes currentDay)
    ∧ (∀ d ∈ deductions, d.deductionDate = currentDay →
        d ∈ getProcessedDeductions deductions currentDay) := by
  refine ⟨?_, ?_, ?_, ?_, ?_, ?_⟩
  · rw [getProcessedIncomes, getPendingIncomes]
    have hq : incomes.filter (fun income => incomeDateGT income currentDay)
        = incomes.filter (fun income => !(incomeDateLE income currentDay)) :=
      List.filter_congr (fun i hi => incomeDateGT_eq_not_LE (hvi i hi) currentDay)
    rw [hq]
    exact List.filter_append_perm _ incomes
  · intro i hip hipd
    exact not_incomeDateLE_and_GT i currentDay
      ⟨(List.mem_filter.mp hip).2, (List.mem_filter.mp hipd).2⟩
  · rw [getProcessedDeductions, getPendingDeductions]
    have hq : deductions.filter
          (fun deduction => decide (currentDay < deduction.deductionDate))
        = deductions.filter
          (fun deduction => !(decide (deduction.deductionDate ≤ currentDay))) := by
      apply List.filter_congr
      intro d _
      rcases Int.lt_or_le currentDay d.deductionDate with hlt | hle
      · simp [hlt, Int.not_le.mpr hlt]
      · simp [hle, Int.not_lt.mpr hle]
    rw [hq]
    exact List.filter_append_perm _ deductions
  · intro d hip hipd
    have h1 := (List.mem_filter.mp hip).2
    have h2 := (List.mem_filter.mp hipd).2
    simp only [decide_eq_true_eq] at h1 h2
    omega
  · intro i hi hdate
    refine List.mem_filter.mpr ⟨hi, ?_⟩
    rw [incomeDateLE, hdate]
    have : (currentDay != 0) = true := by
      simp only [bne_iff_ne, ne_eq]
      omega
    simp [this]
  · intro d hd hdate
    refine List.mem_filter.mpr ⟨hd, ?_⟩
    simp [hdate]

theorem processed_pending_partition_witness :
    (∀ i ∈ exampleIncomes, validIncomeDate i = true)
    ∧ (∀ d ∈ exampleDeductions, validDeductionDate d = true)
    ∧ (1 ≤ (10 : Int) ∧ (10 : Int) ≤ 31)
    ∧ (List.Perm
        (getProcessedIncomes exampleIncomes 10 ++ getPendingIncomes exampleIncomes 10)
        exampleIncomes
      ∧ (∀ i, i ∈ getProcessedIncomes exampleIncomes 10 →
          i ∉ getPendingIncomes exampleIncomes 10)
      ∧ List.Perm
        (getProcessedDeductions exampleDeductions 10
          ++ getPendingDeductions exampleDeductions 10)
        exampleDeductions
      ∧ (∀ d, d ∈ getProcessedDeductions exampleDeductions 10 →
          d ∉ getPendingDeductions exampleDeductions 10)
      ∧ (∀ i ∈ exampleIncomes, i.incomeDate = some 10 →
          i ∈ getProcessedIncomes exampleIncomes 10)
      ∧ (∀ d ∈ exampleDeductions, d.deductionDate = 10 →
          d ∈ getProcessedDeductions exampleDeductions 10)) :=
  ⟨by decide, by decide, by decide,
    processed_pending_partition exampleIncomes exampleDeductions 10
      (by decide) (by decide) (by decide)⟩

/-- C5: on a duplicate-free list of requested dates (the invariant the
projection-date set maintains), `getProjectionData` is sorted ascending by
date, has one point per distinct requested date, and marks at most one point
as today. -/
theorem projection_series_shape (incomes : List Income) (deductions : List Deduction)
    (currentDay : Int) (dates : List Int) (hnd : dates.Nodup) :
    List.Pairwise (fun a b : ProjectionPoint => a.date ≤ b.date)
      (getProjectionData incomes deductions currentDay dates)
    ∧ (getProjectionData incomes deductions currentDay dates).length
        = dates.dedup.length
    ∧ ((getProjectionData incomes deductions currentDay dates).filter
        (fun p => p.isToday)).length ≤ 1 := by
  refine ⟨?_, ?_, ?_⟩
  · have hs : List.Pairwise
        (fun a b : ProjectionPoint => (decide (a.date ≤ b.date)) = true)
        ((dates.map (projectionPoint incomes deductions currentDay)).mergeSort
          (fun a b => decide (a.date ≤ b.date))) := by
      apply List.sorted_mergeSort
      · intro a b c h1 h2
        simp only [decide_eq_true_eq] at h1 h2 ⊢
        omega
      · intro a b
        rcases Int.le_total a.date b.date with h | h <;> simp [h]
    exact hs.imp (fun h => by simpa using h)
  · simp only [getProjectionData, List.length_mergeSort, List.length_map]
    rw [List.dedup_eq_self.mpr hnd]
  · rw [getProjectionData]
    have hperm := List.mergeSort_perm
      (dates.map (projectionPoint incomes deductions currentDay))
      (fun a b => decide (a.date ≤ b.date))
    rw [(hperm.filter (fun p => p.isToday)).length_eq]
    rw [List.filter_map, List.length_map]
    have hcnt : (fun d : Int =>
        (projectionPoint incomes deductions currentDay d).isToday)
        = (fun d : Int => d == currentDay) := rfl
    rw [Function.comp_def]
    rw [hcnt]
    rw [← List.countP_eq_length_filter, ← List.count_eq_countP]
    exact List.nodup_iff_count_le_one.mp hnd currentDay

theorem projection_series_shape_witness :
    ([5, 10, 15, 20, 25] : List Int).Nodup
    ∧ (List.Pairwise (fun a b : ProjectionPoint => a.date ≤ b.date)
        (getProjectionData exampleIncomes exampleDeductions 10 [5, 10, 15, 20, 25])
      ∧ (getProjectionData exampleIncomes exampleDeductions 10
          [5, 10, 15, 20, 25]).length = ([5, 10, 15, 20, 25] : List Int).dedup.length
      ∧ ((getProjectionData exampleIncomes exampleDeductions 10
          [5, 10, 15, 20, 25]).filter (fun p => p.isToday)).length ≤ 1) :=
  ⟨by decide,
    projection_series_shape exampleIncomes exampleDeductions 10 [5, 10, 15, 20, 25]
      (by decide)⟩

/-- C7: `addProjectionDate` silently ignores out-of-range or duplicate days
and otherwise inserts the day; `removeProjectionDate` removes the day and is
a no-op when it is absent; both preserve the set's sorted-ascending,
duplicate-free invariant. -/
theorem projection_date_set_ops (dates : List Int) (newDate dateToRemove : Int)
    (hs : List.Pairwise (fun a b : Int => a ≤ b) dates) (hnd : dates.Nodup) :
    ((newDate < 1 ∨ 31 < newDate ∨ newDate ∈ dates) →
        addProjectionDate dates newDate = dates)
    ∧ (1 ≤ newDate → newDate ≤ 31 → newDate ∉ dates →
        List.Perm (addProjectionDate dates newDate) (newDate :: dates))
    ∧ dateToRemove ∉ removeProjectionDate dates dateToRemove
    ∧ (∀ x, x ≠ dateToRemove →
        (x ∈ removeProjectionDate dates dateToRemove ↔ x ∈ dates))
    ∧ (dateToRemove ∉ dates → removeProjectionDate dates dateToRemove = dates)
    ∧ List.Pairwise (fun a b : Int => a ≤ b) (addProjectionDate dates newDate)
    ∧ (addProjectionDate dates newDate).Nodup
    ∧ List.Pairwise (fun a b : Int => a ≤ b)
        (removeProjectionDate dates dateToRemove)
    ∧ (removeProjectionDate dates dateToRemove).Nodup := by
  refine ⟨?_, ?_, ?_, ?_, ?_, ?_, ?_, ?_, ?_⟩
  · intro h
    have hcond : (decide (1 ≤ newDate) && decide (newDate ≤ 31)
        && !(dates.contains newDate)) = false := by
      rcases h with h | h | h
      · simp only [Bool.and_eq_false_iff, decide_eq_false_iff_not, Int.not_le]
        left; left; exact h
      · simp only [Bool.and_eq_false_iff, decide_eq_false_iff_not, Int.not_le]
        left; right; exact h
      · simp [h]
    rw [addProjectionDate, hcond]
    rfl
  · intro h1 h2 h3
    have hcond : (decide (1 ≤ newDate) && decide (newDate ≤ 31)
        && !(dates.contains newDate)) = true := by
      simp [h1, h2, h3]
    rw [addProjectionDate, hcond]
    simp only [if_true]
    exact (List.mergeSort_perm _ _).trans (List.perm_append_singleton _ _)
  · intro hmem
    have := (List.mem_filter.mp hmem).2
    simp at this
  · intro x hx
    constructor
    · intro hmem
      exact (List.mem_filter.mp hmem).1
    · intro hmem
      exact List.mem_filter.mpr ⟨hmem, by simp [hx]⟩
  · intro habs
    apply List.filter_eq_self.mpr
    intro a ha
    simp only [bne_iff_ne, ne_eq, decide_eq_true_eq]
    intro heq
    exact habs (heq ▸ ha)
  · rw [addProjectionDate]
    split
    · have hsorted : List.Pairwise
          (fun a b : Int => (decide (a ≤ b)) = true)
          ((dates ++ [newDate]).mergeSort (fun a b => decide (a ≤ b))) := by
        apply List.sorted_mergeSort
        · intro a b c hab hbc
          simp only [decide_eq_true_eq] at hab hbc ⊢
          omega
        · intro a b
          rcases Int.le_total a b with h | h <;> simp [h]
      exact hsorted.imp (fun h => by simpa using h)
    · exact hs
  · rw [addProjectionDate]
    split
    · rename_i hcond
      simp only [Bool.and_eq_true, Bool.not_eq_true'] at hcond
      have hnm : newDate ∉ dates := by
        have h2 := hcond.2
        rw [List.contains_eq_any_beq] at h2
        simp only [List.any_eq_false, beq_iff_eq] at h2
        intro hmem
        exact h2 newDate hmem rfl
      apply (List.mergeSort_perm _ _).nodup_iff.mpr
      apply ((List.perm_append_singleton _ _).nodup_iff).mpr
      exact List.nodup_cons.mpr ⟨hnm, hnd⟩
    · exact hnd
  · exact hs.filter _
  · exact hnd.filter _

theorem projection_date_set_ops_witness :
    List.Pairwise (fun a b : Int => a ≤ b) [5, 10, 15, 20, 25]
    ∧ ([5, 10, 15, 20, 25] : List Int).Nodup
    ∧ ((((7 : Int) < 1 ∨ (31 : Int) < 7 ∨ (7 : Int) ∈ [5, 10, 15, 20, 25]) →
        addProjectionDate [5, 10, 15, 20, 25] 7 = [5, 10, 15, 20, 25])
      ∧ (1 ≤ (7 : Int) → (7 : Int) ≤ 31 → (7 : Int) ∉ [5, 10, 15, 20, 25] →
          List.Perm (addProjectionDate [5, 10, 15, 20, 25] 7)
            (7 :: [5, 10, 15, 20, 25]))
      ∧ (10 : Int) ∉ removeProjectionDate [5, 10, 15, 20, 25] 10
      ∧ (∀ x, x ≠ (10 : Int) →
          (x ∈ removeProjectionDate [5, 10, 15, 20, 25] 10
            ↔ x ∈ ([5, 10, 15, 20, 25] : List Int)))
      ∧ ((10 : Int) ∉ ([5, 10, 15, 20, 25] : List Int) →
          removeProjectionDate [5, 10, 15, 20, 25] 10 = [5, 10, 15, 20, 25])
      ∧ List.Pairwise (fun a b : Int => a ≤ b)
          (addProjectionDate [5, 10, 15, 20, 25] 7)
      ∧ (addProjectionDate [5, 10, 15, 20, 25] 7).Nodup
      ∧ List.Pairwise (fun a b : Int => a ≤ b)
          (removeProjectionDate [5, 10, 15, 20, 25] 10)
      ∧ (removeProjectionDate [5, 10, 15, 20, 25] 10).Nodup) :=
  ⟨by decide, by decide,
    projection_date_set_ops [5, 10, 15, 20, 25] 7 10 (by decide) (by decide)⟩

theorem storeGet_eq_some {α : Type} {m : List (String × α)} {id : String} {old : α}
    (h : storeGet m id = some old) :
    ∃ e ∈ m, e.1 = id ∧ e.2 = old := by
  rw [storeGet] at h
  cases hf : m.find? (fun e => e.1 == id) with
  | none =>
    rw [hf] at h
    exact absurd h (by simp)
  | some e =>
    rw [hf] at h
    simp only [Option.map_some', Option.some_inj] at h
    refine ⟨e, List.mem_of_find?_eq_some hf, ?_, h⟩
    have := List.find?_some hf
    simpa using this

/-- C9: partial updates in the record store replace exactly the named fields:
the returned record keeps the requested id, every field absent from the
partial keeps its old value (`userId` always does, since the insert schema
cannot name it), and an update against a missing id returns the explicit
absent result and leaves the store untouched. -/
theorem update_partial_frame (m : List (String × Income))
    (md : List (String × Deduction)) (id : String)
    (u : IncomeUpdate) (ud : DeductionUpdate)
    (hwf : ∀ e ∈ m, (e.2).id = e.1) (hwfd : ∀ e ∈ md, (e.2).id = e.1) :
    (storeGet m id = none → updateIncome m id u = (none, m))
    ∧ (∀ old, storeGet m id = some old →
        (updateIncome m id u).1 = some (applyIncomeUpdate old u)
        ∧ (applyIncomeUpdate old u).id = id
        ∧ (u.description = none →
            (applyIncomeUpdate old u).description = old.description)
        ∧ (u.amount = none → (applyIncomeUpdate old u).amount = old.amount)
        ∧ (u.frequency = none → (applyIncomeUpdate old u).frequency = old.frequency)
        ∧ (u.incomeDate = none →
            (applyIncomeUpdate old u).incomeDate = old.incomeDate)
        ∧ (applyIncomeUpdate old u).userId = old.userId)
    ∧ (storeGet md id = none → updateDeduction md id ud = (none, md))
    ∧ (∀ old, storeGet md id = some old →
        (updateDeduction md id ud).1 = some (applyDeductionUpdate old ud)
        ∧ (applyDeductionUpdate old ud).id = id
        ∧ (ud.description = none →
            (applyDeductionUpdate old ud).description = old.description)
        ∧ (ud.amount = none → (applyDeductionUpdate old ud).amount = old.amount)
        ∧ (ud.category = none →
            (applyDeductionUpdate old ud).category = old.category)
        ∧ (ud.deductionDate = none →
            (applyDeductionUpdate old ud).deductionDate = old.deductionDate)
        ∧ (applyDeductionUpdate old ud).userId = old.userId) := by
  refine ⟨?_, ?_, ?_, ?_⟩
  · intro h
    rw [updateIncome, h]
  · intro old hold
    obtain ⟨e, hmem, hid, hval⟩ := storeGet_eq_some hold
    have hold_id : old.id = id := by
      rw [← hval, hwf e hmem, hid]
    refine ⟨by rw [updateIncome, hold], ?_, ?_, ?_, ?_, ?_, rfl⟩
    · rw [applyIncomeUpdate]
      exact hold_id
    · intro hnone
      rw [applyIncomeUpdate, hnone]
      rfl
    · intro hnone
      rw [applyIncomeUpdate, hnone]
      rfl
    · intro hnone
      rw [applyIncomeUpdate, hnone]
      rfl
    · intro hnone
      rw [applyIncomeUpdate, hnone]
      rfl
  · intro h
    rw [updateDeduction, h]
  · intro old hold
    obtain ⟨e, hmem, hid, hval⟩ := storeGet_eq_some hold
    have hold_id : old.id = id := by
      rw [← hval, hwfd e hmem, hid]
    refine ⟨by rw [updateDeduction, hold], ?_, ?_, ?_, ?_, ?_, rfl⟩
    · rw [applyDeductionUpdate]
      exact hold_id
    · intro hnone
      rw [applyDeductionUpdate, hnone]
      rfl
    · intro hnone
      rw [applyDeductionUpdate, hnone]
      rfl
    · intro hnone
      rw [applyDeductionUpdate, hnone]
      rfl
    · intro hnone
      rw [applyDeductionUpdate, hnone]
      rfl

theorem update_partial_frame_witness :
    (∀ e ∈ exampleIncomeStore, (e.2).id = e.1)
    ∧ (∀ e ∈ exampleDeductionStore, (e.2).id = e.1)
    ∧ ((storeGet exampleIncomeStore "i1" = none →
        updateIncome exampleIncomeStore "i1" exampleIncomeUpdate
          = (none, exampleIncomeStore))
    ∧ (∀ old, storeGet exampleIncomeStore "i1" = some old →
        (updateIncome exampleIncomeStore "i1" exampleIncomeUpdate).1
            = some (applyIncomeUpdate old exampleIncomeUpdate)
        ∧ (applyIncomeUpdate old exampleIncomeUpdate).id = "i1"
        ∧ (exampleIncomeUpdate.description = none →
            (applyIncomeUpdate old exampleIncomeUpdate).description
              = old.description)
        ∧ (exampleIncomeUpdate.amount = none →
            (applyIncomeUpdate old exampleIncomeUpdate).amount = old.amount)
        ∧ (exampleIncomeUpdate.frequency = none →
            (applyIncomeUpdate old exampleIncomeUpdate).frequency = old.frequency)
        ∧ (exampleIncomeUpdate.incomeDate = none →
            (applyIncomeUpdate old exampleIncomeUpdate).incomeDate
              = old.incomeDate)
        ∧ (applyIncomeUpdate old exampleIncomeUpdate).userId = old.userId)
    ∧ (storeGet exampleDeductionStore "i1" = none →
        updateDeduction exampleDeductionStore "i1" exampleDeductionUpdate
          = (none, exampleDeductionStore))
    ∧ (∀ old, storeGet exampleDeductionStore "i1" = some old →
        (updateDeduction exampleDeductionStore "i1" exampleDeductionUpdate).1
            = some (applyDeductionUpdate old exampleDeductionUpdate)
        ∧ (applyDeductionUpdate old exampleDeductionUpdate).id = "i1"
        ∧ (exampleDeductionUpdate.description = none →
            (applyDeductionUpdate old exampleDeductionUpdate).description
              = old.description)
        ∧ (exampleDeductionUpdate.amount = none →
            (applyDeductionUpdate old exampleDeductionUpdate).amount = old.amount)
        ∧ (exampleDeductionUpdate.category = none →
            (applyDeductionUpdate old exampleDeductionUpdate).category
              = old.category)
        ∧ (exampleDeductionUpdate.deductionDate = none →
            (applyDeductionUpdate old exampleDeductionUpdate).deductionDate
              = old.deductionDate)
        ∧ (applyDeductionUpdate old exampleDeductionUpdate).userId = old.userId)) :=
  ⟨by decide, by decide,
    update_partial_frame exampleIncomeStore exampleDeductionStore "i1"
      exampleIncomeUpdate exampleDeductionUpdate (by decide) (by decide)⟩

theorem incomeDateLE_false_of_null {i : Income}
    (h : i.incomeDate = none ∨ i.incomeDate = some 0) (day : Int) :
    incomeDateLE i day = false := by
  rcases h with h | h
  · rw [incomeDateLE, h]
  · rw [incomeDateLE, h]
    simp

theorem incomeDateGT_false_of_null {i : Income}
    (h : i.incomeDate = none ∨ i.incomeDate = some 0) (day : Int) :
    incomeDateGT i day = false := by
  rcases h with h | h
  · rw [incomeDateGT, h]
  · rw [incomeDateGT, h]
    simp

theorem filter_middle_false {α : Type} (p : α → Bool) (a : α) (pre post : List α)
    (h : p a = false) : (pre ++ a :: post).filter p = (pre ++ post).filter p := by
  simp [List.filter_append, List.filter_cons, h]

/-- C10: an income whose `incomeDate` is `null` or `0` still counts fully in
`totalIncome` (hence in `remainingBudget`), but the truthiness guard of every
date filter drops it from the processed and pending lists, from
`calculateBudgetAtDate` at every target, and from every projection point of
`getProjectionData`. -/
theorem null_date_income_ghost (i : Income) (pre post : List Income)
    (deductions : List Deduction) (currentDay targetDate : Int) (dates : List Int)
    (hnull : i.incomeDate = none ∨ i.incomeDate = some 0) :
    totalIncome (pre ++ i :: post) = i.amount + totalIncome (pre ++ post)
    ∧ i ∉ getProcessedIncomes (pre ++ i :: post) currentDay
    ∧ i ∉ getPendingIncomes (pre ++ i :: post) currentDay
    ∧ calculateBudgetAtDate (pre ++ i :: post) deductions currentDay targetDate
        = calculateBudgetAtDate (pre ++ post) deductions currentDay targetDate
    ∧ getProjectionData (pre ++ i :: post) deductions currentDay dates
        = getProjectionData (pre ++ post) deductions currentDay dates := by
  refine ⟨?_, ?_, ?_, ?_, ?_⟩
  · rw [totalIncome_eq_sum, totalIncome_eq_sum]
    simp only [List.map_append, List.map_cons, List.sum_append, List.sum_cons]
    ring
  · intro hmem
    have := (List.mem_filter.mp hmem).2
    rw [incomeDateLE_false_of_null hnull currentDay] at this
    exact absurd this (by simp)
  · intro hmem
    have := (List.mem_filter.mp hmem).2
    rw [incomeDateGT_false_of_null hnull currentDay] at this
    exact absurd this (by simp)
  · simp only [calculateBudgetAtDate]
    rw [filter_middle_false
      (fun income => incomeDateLE income (min targetDate currentDay)) i pre post
      (incomeDateLE_false_of_null hnull (min targetDate currentDay))]
  · simp only [getProjectionData]
    have hpt : ∀ d ∈ dates,
        projectionPoint (pre ++ i :: post) deductions currentDay d
          = projectionPoint (pre ++ post) deductions currentDay d := by
      intro d _
      simp only [projectionPoint]
      rw [filter_middle_false (fun income => incomeDateLE income d) i pre post
        (incomeDateLE_false_of_null hnull d)]
    rw [List.map_congr_left hpt]

theorem null_date_income_ghost_witness :
    (nullDateIncome.incomeDate = none ∨ nullDateIncome.incomeDate = some 0)
    ∧ (totalIncome (exampleIncomes ++ nullDateIncome :: [])
        = nullDateIncome.amount + totalIncome (exampleIncomes ++ [])
    ∧ nullDateIncome ∉ getProcessedIncomes (exampleIncomes ++ nullDateIncome :: []) 10
    ∧ nullDateIncome ∉ getPendingIncomes (exampleIncomes ++ nullDateIncome :: []) 10
    ∧ calculateBudgetAtDate (exampleIncomes ++ nullDateIncome :: [])
        exampleDeductions 10 15
        = calculateBudgetAtDate (exampleIncomes ++ []) exampleDeductions 10 15
    ∧ getProjectionData (exampleIncomes ++ nullDateIncome :: [])
        exampleDeductions 10 [5, 10, 15, 20, 25]
        = getProjectionData (exampleIncomes ++ []) exampleDeductions 10
            [5, 10, 15, 20, 25]) :=
  ⟨Or.inl rfl,
    null_date_income_ghost nullDateIncome exampleIncomes [] exampleDeductions
      10 15 [5, 10, 15, 20, 25] (Or.inl rfl)⟩

theorem dTenth_eq : dTenth = 7205759403792794 * (2 : ℚ) ^ (-56 : ℤ) := by
  rw [dTenth, roundDouble_pos_eq (10/100) (-4) 7205759403792794 (by norm_num)
    (by norm_num) (by norm_num)
    (by
      have hq : (10 / 100 : ℚ) / 2 ^ ((-4 : ℤ) - 52) = 2 ^ 56 / 10 := by norm_num
      rw [hq, roundHalfEven_eq_up (2 ^ 56 / 10) 7205759403792793
        (by norm_num) (by norm_num) (by norm_num)]
      norm_num)]
  norm_num

theorem dFifth_eq : dFifth = 7205759403792794 * (2 : ℚ) ^ (-55 : ℤ) := by
  rw [dFifth, roundDouble_pos_eq (20/100) (-3) 7205759403792794 (by norm_num)
    (by norm_num) (by norm_num)
    (by
      have hq : (20 / 100 : ℚ) / 2 ^ ((-3 : ℤ) - 52) = 2 ^ 55 / 5 := by norm_num
      rw [hq, roundHalfEven_eq_up (2 ^ 55 / 5) 7205759403792793
        (by norm_num) (by norm_num) (by norm_num)]
      norm_num)]
  norm_num

theorem dThreeTenths_eq : dThreeTenths = 5404319552844595 * (2 : ℚ) ^ (-54 : ℤ) := by
  rw [dThreeTenths, roundDouble_pos_eq (30/100) (-2) 5404319552844595 (by norm_num)
    (by norm_num) (by norm_num)
    (by
      have hq : (30 / 100 : ℚ) / 2 ^ ((-2 : ℤ) - 52) = 3 * 2 ^ 54 / 10 := by norm_num
      rw [hq, roundHalfEven_eq_down (3 * 2 ^ 54 / 10) 5404319552844595
        (by norm_num) (by norm_num) (by norm_num)])]
  norm_num

theorem roundDouble_dTenth : roundDouble dTenth = dTenth := by
  rw [dTenth_eq]
  exact roundDouble_dyadic 7205759403792794 (-56) (by norm_num) (by norm_num)

theorem roundDouble_dThreeTenths : roundDouble dThreeTenths = dThreeTenths := by
  rw [dThreeTenths_eq]
  exact roundDouble_dyadic 5404319552844595 (-54) (by norm_num) (by norm_num)

theorem stepA2 : roundDouble (dTenth + dFifth)
    = 5404319552844596 * (2 : ℚ) ^ (-54 : ℤ) := by
  rw [dTenth_eq, dFifth_eq]
  have hsum : 7205759403792794 * (2 : ℚ) ^ (-56 : ℤ)
      + 7205759403792794 * (2 : ℚ) ^ (-55 : ℤ)
      = 21617278211378382 * (2 : ℚ) ^ (-56 : ℤ) := by norm_num
  rw [hsum, roundDouble_pos_eq (21617278211378382 * (2 : ℚ) ^ (-56 : ℤ)) (-2)
    5404319552844596 (by norm_num) (by norm_num) (by norm_num)
    (by
      have hq : 21617278211378382 * (2 : ℚ) ^ (-56 : ℤ) / 2 ^ ((-2 : ℤ) - 52)
          = 21617278211378382 / 4 := by norm_num
      rw [hq, roundHalfEven_eq_tie (21617278211378382 / 4) 5404319552844595
        (by norm_num) (by norm_num)]
      norm_num)]
  norm_num

theorem stepA3 : roundDouble (5404319552844596 * (2 : ℚ) ^ (-54 : ℤ) + dThreeTenths)
    = 5404319552844596 * (2 : ℚ) ^ (-53 : ℤ) := by
  rw [dThreeTenths_eq]
  have hsum : 5404319552844596 * (2 : ℚ) ^ (-54 : ℤ)
      + 5404319552844595 * (2 : ℚ) ^ (-54 : ℤ)
      = 10808639105689191 * (2 : ℚ) ^ (-54 : ℤ) := by norm_num
  rw [hsum, roundDouble_pos_eq (10808639105689191 * (2 : ℚ) ^ (-54 : ℤ)) (-1)
    5404319552844596 (by norm_num) (by norm_num) (by norm_num)
    (by
      have hq : 10808639105689191 * (2 : ℚ) ^ (-54 : ℤ) / 2 ^ ((-1 : ℤ) - 52)
          = 10808639105689191 / 2 := by norm_num
      rw [hq, roundHalfEven_eq_tie (10808639105689191 / 2) 5404319552844595
        (by norm_num) (by norm_num)]
      norm_num)]
  norm_num

theorem stepB2 : roundDouble (dThreeTenths + dFifth)
    = 4503599627370496 * (2 : ℚ) ^ (-53 : ℤ) := by
  rw [dThreeTenths_eq, dFifth_eq]
  have hsum : 5404319552844595 * (2 : ℚ) ^ (-54 : ℤ)
      + 7205759403792794 * (2 : ℚ) ^ (-55 : ℤ)
      = 4503599627370496 * (2 : ℚ) ^ (-53 : ℤ) := by norm_num
  rw [hsum]
  exact roundDouble_dyadic 4503599627370496 (-53) (by norm_num) (by norm_num)

theorem stepB3 : roundDouble (4503599627370496 * (2 : ℚ) ^ (-53 : ℤ) + dTenth)
    = 5404319552844595 * (2 : ℚ) ^ (-53 : ℤ) := by
  rw [dTenth_eq]
  have hsum : 4503599627370496 * (2 : ℚ) ^ (-53 : ℤ)
      + 7205759403792794 * (2 : ℚ) ^ (-56 : ℤ)
      = 43234556422756762 * (2 : ℚ) ^ (-56 : ℤ) := by norm_num
  rw [hsum, roundDouble_pos_eq (43234556422756762 * (2 : ℚ) ^ (-56 : ℤ)) (-1)
    5404319552844595 (by norm_num) (by norm_num) (by norm_num)
    (by
      have hq : 43234556422756762 * (2 : ℚ) ^ (-56 : ℤ) / 2 ^ ((-1 : ℤ) - 52)
          = 43234556422756762 / 8 := by norm_num
      rw [hq, roundHalfEven_eq_down (43234556422756762 / 8) 5404319552844595
        (by norm_num) (by norm_num) (by norm_num)])]
  norm_num

theorem jsTotalIncomeA_eq :
    jsTotalIncome floatIncomesA = 5404319552844596 * (2 : ℚ) ^ (-53 : ℤ) := by
  simp only [jsTotalIncome, floatIncomesA, List.foldl_cons, List.foldl_nil]
  rw [zero_add, roundDouble_dTenth, stepA2, stepA3]

theorem jsTotalIncomeB_eq :
    jsTotalIncome floatIncomesB = 5404319552844595 * (2 : ℚ) ^ (-53 : ℤ) := by
  simp only [jsTotalIncome, floatIncomesB, List.foldl_cons, List.foldl_nil]
  rw [zero_add, roundDouble_dThreeTenths, stepB2, stepB3]

theorem jsFoldl_income_exact : ∀ (l : List Income) (c : ℕ),
    (∀ i ∈ l, ∃ n : ℕ, i.amount = (n : ℚ)) →
    ((c : ℚ) + (l.map Income.amount).sum < 2 ^ 53) →
    l.foldl (fun sum income => roundDouble (sum + income.amount)) (c : ℚ)
      = (c : ℚ) + (l.map Income.amount).sum
  | [], c, _, _ => by simp
  | i :: l, c, hint, hbound => by
    obtain ⟨n, hn⟩ := hint i (List.mem_cons_self i l)
    have hnonneg : 0 ≤ (l.map Income.amount).sum := by
      apply List.sum_nonneg
      intro x hx
      obtain ⟨j, hj, rfl⟩ := List.mem_map.mp hx
      obtain ⟨m, hm⟩ := hint j (List.mem_cons_of_mem i hj)
      rw [hm]
      positivity
    have hsum : (c : ℚ) + ((i :: l).map Income.amount).sum
        = ((c + n : ℕ) : ℚ) + (l.map Income.amount).sum := by
      rw [List.map_cons, List.sum_cons, hn]
      push_cast
      ring
    have hlt : ((c + n : ℕ) : ℚ) + (l.map Income.amount).sum < 2 ^ 53 := by
      rw [← hsum]
      exact hbound
    have hstep : roundDouble ((c : ℚ) + i.amount) = ((c + n : ℕ) : ℚ) := by
      rw [hn]
      have hcn : (c : ℚ) + (n : ℚ) = ((c + n : ℕ) : ℚ) := by push_cast; ring
      rw [hcn]
      exact roundDouble_nat (c + n) (by linarith)
    rw [List.foldl_cons, hstep, jsFoldl_income_exact l (c + n)
      (fun j hj => hint j (List.mem_cons_of_mem i hj)) hlt, ← hsum]

theorem jsFoldl_deduction_exact : ∀ (l : List Deduction) (c : ℕ),
    (∀ d ∈ l, ∃ n : ℕ, d.amount = (n : ℚ)) →
    ((c : ℚ) + (l.map Deduction.amount).sum < 2 ^ 53) →
    l.foldl (fun sum deduction => roundDouble (sum + deduction.amount)) (c : ℚ)
      = (c : ℚ) + (l.map Deduction.amount).sum
  | [], c, _, _ => by simp
  | d :: l, c, hint, hbound => by
    obtain ⟨n, hn⟩ := hint d (List.mem_cons_self d l)
    have hnonneg : 0 ≤ (l.map Deduction.amount).sum := by
      apply List.sum_nonneg
      intro x hx
      obtain ⟨j, hj, rfl⟩ := List.mem_map.mp hx
      obtain ⟨m, hm⟩ := hint j (List.mem_cons_of_mem d hj)
      rw [hm]
      positivity
    have hsum : (c : ℚ) + ((d :: l).map Deduction.amount).sum
        = ((c + n : ℕ) : ℚ) + (l.map Deduction.amount).sum := by
      rw [List.map_cons, List.sum_cons, hn]
      push_cast
      ring
    have hlt : ((c + n : ℕ) : ℚ) + (l.map Deduction.amount).sum < 2 ^ 53 := by
      rw [← hsum]
      exact hbound
    have hstep : roundDouble ((c : ℚ) + d.amount) = ((c + n : ℕ) : ℚ) := by
      rw [hn]
      have hcn : (c : ℚ) + (n : ℚ) = ((c + n : ℕ) : ℚ) := by push_cast; ring
      rw [hcn]
      exact roundDouble_nat (c + n) (by linarith)
    rw [List.foldl_cons, hstep, jsFoldl_deduction_exact l (c + n)
      (fun j hj => hint j (List.mem_cons_of_mem d hj)) hlt, ← hsum]

theorem jsTotalIncome_exact (incomes : List Income)
    (hint : ∀ i ∈ incomes, ∃ n : ℕ, i.amount = (n : ℚ))
    (hbound : (incomes.map Income.amount).sum < 2 ^ 53) :
    jsTotalIncome incomes = (incomes.map Income.amount).sum := by
  have h := jsFoldl_income_exact incomes 0 hint
    (by rw [Nat.cast_zero, zero_add]; exact hbound)
  rw [Nat.cast_zero, zero_add] at h
  rw [jsTotalIncome]
  exact h

theorem jsTotalDeductions_exact (deductions : List Deduction)
    (hint : ∀ d ∈ deductions, ∃ n : ℕ, d.amount = (n : ℚ))
    (hbound : (deductions.map Deduction.amount).sum < 2 ^ 53) :
    jsTotalDeductions deductions = (deductions.map Deduction.amount).sum := by
  have h := jsFoldl_deduction_exact deductions 0 hint
    (by rw [Nat.cast_zero, zero_add]; exact hbound)
  rw [Nat.cast_zero, zero_add] at h
  rw [jsTotalDeductions]
  exact h

theorem sum_natCast_of_forall (l : List ℚ) (h : ∀ x ∈ l, ∃ n : ℕ, x = (n : ℚ)) :
    ∃ a : ℕ, l.sum = (a : ℚ) := by
  induction l with
  | nil => exact ⟨0, by simp⟩
  | cons x l ih =>
    obtain ⟨n, hn⟩ := h x (List.mem_cons_self x l)
    obtain ⟨a, ha⟩ := ih (fun y hy => h y (List.mem_cons_of_mem x hy))
    refine ⟨n + a, ?_⟩
    rw [List.sum_cons, hn, ha]
    push_cast
    ring

/-- C8 counterexample: the source sums amounts in binary64, and binary64
summation of two-decimal amounts is neither order-independent nor
decimal-precise.  The three amounts 0.10, 0.20, 0.30 summed in snapshot
order give the double 0.6000000000000001, but summed in the reverse order
give the double 0.6 (≠), and neither run equals the exact decimal sum
10/100 + 20/100 + 30/100. -/
theorem totals_order_dependence_counterexample :
    List.Perm floatIncomesA floatIncomesB
    ∧ floatIncomesA.map Income.amount
        = [roundDouble (10/100), roundDouble (20/100), roundDouble (30/100)]
    ∧ jsTotalIncome floatIncomesA ≠ jsTotalIncome floatIncomesB
    ∧ jsTotalIncome floatIncomesA ≠ 10/100 + 20/100 + 30/100 := by
  refine ⟨?_, rfl, ?_, ?_⟩
  · have hrev : floatIncomesA.reverse = floatIncomesB := by rfl
    rw [← hrev]
    exact (List.reverse_perm floatIncomesA).symm
  · rw [jsTotalIncomeA_eq, jsTotalIncomeB_eq]
    norm_num
  · rw [jsTotalIncomeA_eq]
    norm_num

/-- C8 (amended): under the double-precision semantics of the source's
reduces, `totalIncome` and `totalDeductions` are the binary64 sums of all
amounts in snapshot order with no filtering by date, and
`remainingBudget` is their binary64 difference; empty collections yield
totals of 0.  The claimed exactness and order-independence hold in the
regime where every intermediate value is representable — amounts that are
whole units with totals below 2^53 — where the double sums equal the exact
sums, are invariant under permutation of the records, and
`totalIncome − totalDeductions == remainingBudget` holds exactly.  (For
general two-decimal amounts they fail; see the counterexample.) -/
theorem totals_double_spec (incomes incomes' : List Income)
    (deductions : List Deduction)
    (hpi : List.Perm incomes incomes')
    (hIint : ∀ i ∈ incomes, ∃ n : ℕ, i.amount = (n : ℚ))
    (hDint : ∀ d ∈ deductions, ∃ n : ℕ, d.amount = (n : ℚ))
    (hIbound : (incomes.map Income.amount).sum < 2 ^ 53)
    (hDbound : (deductions.map Deduction.amount).sum < 2 ^ 53) :
    jsTotalIncome incomes = (incomes.map Income.amount).sum
    ∧ jsTotalDeductions deductions = (deductions.map Deduction.amount).sum
    ∧ jsTotalIncome incomes = jsTotalIncome incomes'
    ∧ jsRemainingBudget incomes deductions
        = (incomes.map Income.amount).sum - (deductions.map Deduction.amount).sum
    ∧ jsTotalIncome [] = 0 ∧ jsTotalDeductions [] = 0
    ∧ jsRemainingBudget [] [] = 0 := by
  have hI := jsTotalIncome_exact incomes hIint hIbound
  have hD := jsTotalDeductions_exact deductions hDint hDbound
  have hI' : jsTotalIncome incomes' = (incomes'.map Income.amount).sum :=
    jsTotalIncome_exact incomes' (fun i hi => hIint i (hpi.mem_iff.mpr hi))
      (by rw [← (hpi.map Income.amount).sum_eq]; exact hIbound)
  have hImem : ∀ x ∈ incomes.map Income.amount, ∃ n : ℕ, x = (n : ℚ) := by
    intro x hx
    obtain ⟨i, hi, rfl⟩ := List.mem_map.mp hx
    exact hIint i hi
  have hDmem : ∀ x ∈ deductions.map Deduction.amount, ∃ n : ℕ, x = (n : ℚ) := by
    intro x hx
    obtain ⟨d, hd, rfl⟩ := List.mem_map.mp hx
    exact hDint d hd
  obtain ⟨a, ha⟩ := sum_natCast_of_forall (incomes.map Income.amount) hImem
  obtain ⟨b, hb⟩ := sum_natCast_of_forall (deductions.map Deduction.amount) hDmem
  have haN : (a : ℤ) < 9007199254740992 := by
    have h1 : (a : ℚ) < 9007199254740992 := by
      calc (a : ℚ) = (incomes.map Income.amount).sum := ha.symm
        _ < 2 ^ 53 := hIbound
        _ ≤ 9007199254740992 := by norm_num
    exact_mod_cast h1
  have hbN : (b : ℤ) < 9007199254740992 := by
    have h1 : (b : ℚ) < 9007199254740992 := by
      calc (b : ℚ) = (deductions.map Deduction.amount).sum := hb.symm
        _ < 2 ^ 53 := hDbound
        _ ≤ 9007199254740992 := by norm_num
    exact_mod_cast h1
  refine ⟨hI, hD, hI.trans ((hpi.map Income.amount).sum_eq.trans hI'.symm), ?_,
    rfl, rfl, ?_⟩
  · rw [jsRemainingBudget, hI, hD, ha, hb]
    have hz : (a : ℚ) - (b : ℚ) = (((a : ℤ) - (b : ℤ) : ℤ) : ℚ) := by
      rw [Int.cast_sub, Int.cast_natCast, Int.cast_natCast]
    rw [hz, roundDouble_int ((a : ℤ) - (b : ℤ))
      (by rw [abs_lt]; constructor <;> omega)]
  · rw [jsRemainingBudget]
    have h0 : jsTotalIncome [] - jsTotalDeductions [] = 0 := by
      norm_num [jsTotalIncome, jsTotalDeductions]
    rw [h0, roundDouble_zero]

theorem totals_double_spec_witness :
    List.Perm wholeIncomes wholeIncomesSwapped
    ∧ (∀ i ∈ wholeIncomes, ∃ n : ℕ, i.amount = (n : ℚ))
    ∧ (∀ d ∈ exampleDeductions, ∃ n : ℕ, d.amount = (n : ℚ))
    ∧ (wholeIncomes.map Income.amount).sum < 2 ^ 53
    ∧ (exampleDeductions.map Deduction.amount).sum < 2 ^ 53
    ∧ (jsTotalIncome wholeIncomes = (wholeIncomes.map Income.amount).sum
      ∧ jsTotalDeductions exampleDeductions
          = (exampleDeductions.map Deduction.amount).sum
      ∧ jsTotalIncome wholeIncomes = jsTotalIncome wholeIncomesSwapped
      ∧ jsRemainingBudget wholeIncomes exampleDeductions
          = (wholeIncomes.map Income.amount).sum
            - (exampleDeductions.map Deduction.amount).sum
      ∧ jsTotalIncome [] = 0 ∧ jsTotalDeductions [] = 0
      ∧ jsRemainingBudget [] [] = 0) :=
  ⟨by
      have hrev : wholeIncomes.reverse = wholeIncomesSwapped := by rfl
      rw [← hrev]
      exact (List.reverse_perm wholeIncomes).symm,
   by
      intro i hi
      rcases List.mem_cons.mp hi with rfl | hi
      · exact ⟨2000, by norm_num⟩
      rcases List.mem_cons.mp hi with rfl | hi
      · exact ⟨500, by norm_num⟩
      · exact absurd hi (List.not_mem_nil i),
   by
      intro d hd
      rcases List.mem_cons.mp hd with rfl | hd
      · exact ⟨800, by norm_num⟩
      rcases List.mem_cons.mp hd with rfl | hd
      · exact ⟨500, by norm_num⟩
      · exact absurd hd (List.not_mem_nil d),
   by norm_num [wholeIncomes],
   by norm_num [exampleDeductions],
   totals_double_spec wholeIncomes wholeIncomesSwapped exampleDeductions
     (by
        have hrev : wholeIncomes.reverse = wholeIncomesSwapped := by rfl
        rw [← hrev]
        exact (List.reverse_perm wholeIncomes).symm)
     (by
        intro i hi
        rcases List.mem_cons.mp hi with rfl | hi
        · exact ⟨2000, by norm_num⟩
        rcases List.mem_cons.mp hi with rfl | hi
        · exact ⟨500, by norm_num⟩
        · exact absurd hi (List.not_mem_nil i))
     (by
        intro d hd
        rcases List.mem_cons.mp hd with rfl | hd
        · exact ⟨800, by norm_num⟩
        rcases List.mem_cons.mp hd with rfl | hd
        · exact ⟨500, by norm_num⟩
        · exact absurd hd (List.not_mem_nil d))
     (by norm_num [wholeIncomes])
     (by norm_num [exampleDeductions])⟩

end BudgetFlow
